import Mathlib

/-!
Shallow embedding of the Plan Execution & Reversal-Log Engine of the
mindsheet frontend (`App.tsx`): the step orchestrator `executeSteps`, the
reversal-log planner `buildUndoInfo`, the Google-Apps-Script capability
wrappers `executeSheetAction` / `undoSheetActionsGAS`, and the undo handler
`handleUndo`, together with the data model from `types/api.ts`
(`SheetAction`, `StepAction`, `UndoInfo`, the undo-related part of `Message`).

The source is TypeScript, so string tests such as `result.startsWith("Error")`
carry JavaScript semantics (character-prefix test), and guards such as
`action.name` on an optional string field are JavaScript truthiness tests
(the field is present and non-empty).
-/

namespace Mindsheet

/-- Type `SheetAction` from `types/api.ts`: a tagged record whose `action` field
names the kind and whose remaining fields are all optional.  The `values`
payload (`unknown[][]` in the source) is modelled as lists of integers; no
code path examined here inspects the payload's elements. -/
structure SheetAction where
  action : String
  column : Option String := none
  criteria : Option String := none
  ascending : Option Bool := none
  range : Option String := none
  color : Option String := none
  cell : Option String := none
  value : Option String := none
  after : Option String := none
  header : Option String := none
  name : Option String := none
  sheet : Option String := none
  formula : Option String := none
  fillDown : Option Bool := none
  values : Option (List (List Int)) := none
  sourceCell : Option String := none
  lastRow : Option Nat := none
  bold : Option Bool := none
  background : Option String := none
  fontColor : Option String := none
  deriving Repr, DecidableEq

/-- Type `StepAction` from `types/api.ts`. -/
structure StepAction where
  step : Nat
  description : String := ""
  action : SheetAction
  formula : Option String := none
  about : Option String := none
  deriving Repr, DecidableEq

/-- One entry of `cellsToClear`: the inline record type
`{ sheet: string; range: string }` of the source. -/
structure CellRef where
  sheet : String
  range : String
  deriving Repr, DecidableEq

/-- Type `UndoInfo` from `types/api.ts`. -/
structure UndoInfo where
  sheetsToDelete : List String
  cellsToClear : List CellRef
  deriving Repr, DecidableEq

/-- JavaScript truthiness of an optional string field: present and non-empty. -/
def isTruthy : Option String → Bool
  | none => false
  | some s => s ≠ ""

/-- The string carried by an optional field (the empty string when absent;
only ever used under an `isTruthy` guard). -/
def getStr : Option String → String
  | none => ""
  | some s => s

/-- JavaScript `String.prototype.startsWith`: the receiver's characters begin
with the pattern's characters. -/
def jsStartsWith (s p : String) : Bool :=
  p.data.isPrefixOf s.data

/-- The loop body accumulation of `buildUndoInfo` (`App.tsx`), with the two
mutable arrays `sheetsToDelete` and `cellsToClear` threaded explicitly; `push`
appends on the right. -/
def buildUndoInfoAux (steps : List StepAction) (sheetsToDelete : List String)
    (cellsToClear : List CellRef) : UndoInfo :=
  match steps with
  | [] => { sheetsToDelete := sheetsToDelete, cellsToClear := cellsToClear }
  | stp :: rest =>
    let action := stp.action
    if action.action = "createSheet" && isTruthy action.name then
      buildUndoInfoAux rest (sheetsToDelete ++ [getStr action.name]) cellsToClear
    else if action.action = "setFormula" && isTruthy action.sheet && isTruthy action.cell then
      -- Only track modifications on sheets we didn't create (those get deleted entirely)
      if sheetsToDelete.contains (getStr action.sheet) then
        buildUndoInfoAux rest sheetsToDelete cellsToClear
      else
        buildUndoInfoAux rest sheetsToDelete
          (cellsToClear ++ [{ sheet := getStr action.sheet, range := getStr action.cell }])
    else if action.action = "setValues" && isTruthy action.sheet && isTruthy action.range then
      if sheetsToDelete.contains (getStr action.sheet) then
        buildUndoInfoAux rest sheetsToDelete cellsToClear
      else
        buildUndoInfoAux rest sheetsToDelete
          (cellsToClear ++ [{ sheet := getStr action.sheet, range := getStr action.range }])
    else
      buildUndoInfoAux rest sheetsToDelete cellsToClear

/-- Function `buildUndoInfo` from `App.tsx`: single pass over the step list, starting
from two empty arrays.  Note that its argument is a plain `StepAction` list —
the type carries no status field, so the function cannot and does not look at
step statuses. -/
def buildUndoInfo (steps : List StepAction) : UndoInfo :=
  buildUndoInfoAux steps [] []

/-- Runtime status of a step (`_status` in the source): `pending` at creation,
`executing` while its action is in flight, then `done` or `error`. -/
inductive StepStatus where
  | pending
  | executing
  | done
  | error
  deriving Repr, DecidableEq

/-- The classification `executeSteps` applies to the string returned by the
execution capability: `result.startsWith("Error") ? "error" : "done"`. -/
def classifyResult (result : String) : StepStatus :=
  if jsStartsWith result "Error" then .error else .done

/-- The status/result trajectory of the `executeSteps` loop (`App.tsx`): each
step's action is handed to the injected capability `applyAction`, the returned
string is classified and stored as the step's result, and on the first `error`
the loop breaks, leaving the remaining steps `pending` with no stored result. -/
def runSteps (applyAction : SheetAction → String) :
    List StepAction → List (StepStatus × Option String)
  | [] => []
  | stp :: rest =>
    let result := applyAction stp.action
    let status := classifyResult result
    (status, some result) ::
      (if status = .error then rest.map (fun _ => (.pending, none))
       else runSteps applyAction rest)

/-- Function `executeSteps` from `App.tsx`, as final statuses plus the undo info
attached to the message: after the loop, `buildUndoInfo(steps)` is computed on
the FULL original step list, and attached only when it is non-empty. -/
def executeSteps (applyAction : SheetAction → String) (steps : List StepAction) :
    List (StepStatus × Option String) × Option UndoInfo :=
  let statuses := runSteps applyAction steps
  let undoInfo := buildUndoInfo steps
  (statuses,
   if undoInfo.sheetsToDelete.length > 0 || undoInfo.cellsToClear.length > 0 then
     some undoInfo
   else none)

/-- The three ways a `google.script.run` call can come back to the wrappers in
`App.tsx`: the success handler fires with a result string, the failure handler
fires with an error object carrying a message, or the `google` global is
absent (not running inside Google Sheets) and the call throws synchronously. -/
inductive GasOutcome where
  | success (result : String)
  | failure (message : String)
  | notInSheets
  deriving Repr, DecidableEq

/-- Wrapper `executeSheetAction` from `App.tsx`: resolves with the result string on
success, with `"Action failed: " + err.message` when the failure handler
fires, and with `"Not running in Google Sheets"` when the bridge throws. -/
def executeSheetAction : GasOutcome → String
  | .success r => r
  | .failure m => "Action failed: " ++ m
  | .notInSheets => "Not running in Google Sheets"

/-- Wrapper `undoSheetActionsGAS` from `App.tsx`: resolves with the result string on
success, with `"Undo failed: " + err.message` when the failure handler fires,
and with `"Not running in Google Sheets"` when the bridge throws. -/
def undoSheetActionsGAS : GasOutcome → String
  | .success r => r
  | .failure m => "Undo failed: " ++ m
  | .notInSheets => "Not running in Google Sheets"

/-- The undo-relevant part of a `Message`: its optional attached `UndoInfo`
and its `undone` flag (`undefined` in a fresh message, i.e. false). -/
structure MsgUndoState where
  undoInfo : Option UndoInfo
  undone : Bool
  deriving Repr, DecidableEq

/-- A freshly created assistant `Message` carries no `undone` field, which
JavaScript reads as falsy. -/
def initialUndoState (u : Option UndoInfo) : MsgUndoState :=
  { undoInfo := u, undone := false }

/-- Handler `handleUndo` from `App.tsx`, for one trigger of the Undo control on a
message in state `msg`, when the underlying `undoSheetActions` call would come
back as `outcome`: if the message has no `undoInfo` or is already `undone`,
return immediately (no invocation, state unchanged); otherwise invoke
`undoSheetActionsGAS` and then set `undone := true` — without inspecting the
returned string.  The first component is the result string of the issued
invocation (`none` when no invocation was issued). -/
def handleUndo (outcome : GasOutcome) (msg : MsgUndoState) :
    Option String × MsgUndoState :=
  match msg.undoInfo with
  | none => (none, msg)
  | some _ =>
    if msg.undone then (none, msg)
    else (some (undoSheetActionsGAS outcome), { msg with undone := true })

/-- Repeated triggers of the Undo control on the same message, each with its
own outcome for the (possibly not issued) underlying call: counts how many
invocations of the reversal capability are actually issued. -/
def triggerUndoMany (outcomes : List GasOutcome) (msg : MsgUndoState) :
    Nat × MsgUndoState :=
  match outcomes with
  | [] => (0, msg)
  | o :: rest =>
    let r := handleUndo o msg
    let later := triggerUndoMany rest r.2
    ((if r.1.isSome then 1 else 0) + later.1, later.2)

/-- The Undo button's visibility condition in `MessageArea`
(`msg.undoInfo && !msg.undone && onUndo`). -/
def showUndoButton (msg : MsgUndoState) (hasHandler : Bool) : Bool :=
  msg.undoInfo.isSome && !msg.undone && hasHandler

/-! ### Derived helpers used to state properties of `buildUndoInfo` -/

/-- The `cellsToClear` entry a step would contribute when its sheet is not yet
scheduled for deletion: `setFormula` contributes (sheet, cell), `setValues`
contributes (sheet, range), matching the corresponding branches of
`buildUndoInfo`; every other action contributes nothing. -/
def writeEntry (stp : StepAction) : Option CellRef :=
  let action := stp.action
  if action.action = "setFormula" && isTruthy action.sheet && isTruthy action.cell then
    some { sheet := getStr action.sheet, range := getStr action.cell }
  else if action.action = "setValues" && isTruthy action.sheet && isTruthy action.range then
    some { sheet := getStr action.sheet, range := getStr action.range }
  else none

/-- The sheet name a step adds to `sheetsToDelete` (for a `createSheet` step
with a truthy name), matching the first branch of `buildUndoInfo`. -/
def createName (stp : StepAction) : Option String :=
  if stp.action.action = "createSheet" && isTruthy stp.action.name then
    some (getStr stp.action.name)
  else none

/-- Ordering side condition between two steps `a` before `b`: `b` does not
create the sheet that `a` writes into.  A step list pairwise satisfying this
creates sheets only before (never after) writes into them. -/
def createAfterWriteOK (a b : StepAction) : Bool :=
  match writeEntry a with
  | none => true
  | some e => !(createName b == some e.sheet)

/-! ### Concrete plans and capability oracles from the spec's scenarios -/

/-- Step 1 of scenario A / scenario C: `createSheet(name="Summary")`. -/
def createSummaryStep : StepAction :=
  { step := 1, description := "Create the Summary sheet",
    action := { action := "createSheet", name := some "Summary" } }

/-- Scenario A, step 2: `setFormula(sheet="Summary", cell="B2", ...)`. -/
def summaryFormulaStep : StepAction :=
  { step := 2, description := "Write the total formula",
    action := { action := "setFormula", sheet := some "Summary",
                cell := some "B2", formula := some "=SUM(A1:A10)" } }

/-- Scenario B, step 1: `setValues(sheet="Sheet1", range="A1:B3", ...)`. -/
def setValuesStep : StepAction :=
  { step := 1, description := "Fill the data block",
    action := { action := "setValues", sheet := some "Sheet1",
                range := some "A1:B3", values := some [[1, 2], [3, 4], [5, 6]] } }

/-- Scenario B, step 2: `setFormula(sheet="Sheet1", cell="C1", ...)`. -/
def setFormulaC1Step : StepAction :=
  { step := 2, description := "Write the sum formula",
    action := { action := "setFormula", sheet := some "Sheet1",
                cell := some "C1", formula := some "=A1+B1" } }

/-- Scenario A plan: create a sheet, then write a formula into it. -/
def scenarioASteps : List StepAction := [createSummaryStep, summaryFormulaStep]

/-- Scenario B plan: two writes into a pre-existing sheet. -/
def scenarioBSteps : List StepAction := [setValuesStep, setFormulaC1Step]

/-- Scenario C plan: three steps of which the second will fail. -/
def scenarioCSteps : List StepAction :=
  [createSummaryStep,
   { setValuesStep with step := 2 },
   { setFormulaC1Step with step := 3 }]

/-- A capability for scenario C: `setValues` comes back with
`"Error: invalid range"`, everything else succeeds. -/
def scenarioCOracle (a : SheetAction) : String :=
  if a.action = "setValues" then "Error: invalid range" else "Done"

/-- A capability modelling the bridge throwing on every call (the sidebar is
not running inside Google Sheets). -/
def noBridgeOracle (_ : SheetAction) : String :=
  executeSheetAction .notInSheets

/-- An `autoFillDown` step, with its vocabulary fields (`sourceCell`,
`lastRow`, `fillDown`) and, for good measure, `sheet`/`range` fields set as
well. -/
def autoFillStep : StepAction :=
  { step := 1, description := "Fill the formula down",
    action := { action := "autoFillDown", sheet := some "Sheet1",
                range := some "A1:A10", sourceCell := some "B2",
                lastRow := some 10, fillDown := some true } }

/-- A single-cell `setValue` step. -/
def setValueStep : StepAction :=
  { step := 1, description := "Write one cell",
    action := { action := "setValue", sheet := some "Sheet1",
                cell := some "A1", value := some "42" } }

/-- A plan that writes into sheet "S" and only afterwards creates sheet "S". -/
def writeBeforeCreateSteps : List StepAction :=
  [{ step := 1, description := "Write into S",
     action := { action := "setFormula", sheet := some "S",
                 cell := some "A1", formula := some "=1" } },
   { step := 2, description := "Create S",
     action := { action := "createSheet", name := some "S" } }]

/-- A plan that creates sheet "T" and then writes into the distinct,
pre-existing sheet "U". -/
def createThenWriteElsewhereSteps : List StepAction :=
  [{ step := 1, description := "Create T",
     action := { action := "createSheet", name := some "T" } },
   { step := 2, description := "Write into U",
     action := { action := "setFormula", sheet := some "U",
                 cell := some "A1", formula := some "=2" } }]

/-- A message holding undo data for a plan that cleared one cell, not yet
undone. -/
def pendingUndoMsg : MsgUndoState :=
  { undoInfo := some { sheetsToDelete := [],
                       cellsToClear := [{ sheet := "Sheet1", range := "A1" }] },
    undone := false }

/-- A message whose undo has already run. -/
def undoneMsg : MsgUndoState :=
  { undoInfo := some { sheetsToDelete := ["Summary"], cellsToClear := [] },
    undone := true }

end Mindsheet

namespace Mindsheet

/-! ### Claim theorems -/

/-- C1: `executeSteps` hands `buildUndoInfo` the full original step list, so
for scenario C — final statuses `[done, error, pending]` — the undo info
attached to the message also covers the failed second step and the never
attempted third step, instead of being built from step 1 alone as the spec
requires. -/
theorem undoInfo_built_from_all_steps_scenarioC :
    (runSteps scenarioCOracle scenarioCSteps).map Prod.fst =
      [.done, .error, .pending] ∧
    (executeSteps scenarioCOracle scenarioCSteps).2 =
      some { sheetsToDelete := ["Summary"],
             cellsToClear := [{ sheet := "Sheet1", range := "A1:B3" },
                              { sheet := "Sheet1", range := "C1" }] } ∧
    buildUndoInfo [createSummaryStep] =
      { sheetsToDelete := ["Summary"], cellsToClear := [] } ∧
    (executeSteps scenarioCOracle scenarioCSteps).2 ≠
      some (buildUndoInfo [createSummaryStep]) := by
  decide

/-- C3 counterexample: when a write into sheet "S" precedes the `createSheet`
of "S", the name "S" ends up both in `sheetsToDelete` and as the sheet
component of a `cellsToClear` entry — the claimed order-independent
disjointness fails. -/
theorem sheetsToDelete_cellsToClear_overlap :
    buildUndoInfo writeBeforeCreateSteps =
      { sheetsToDelete := ["S"],
        cellsToClear := [{ sheet := "S", range := "A1" }] } ∧
    "S" ∈ (buildUndoInfo writeBeforeCreateSteps).sheetsToDelete ∧
    "S" ∈ (buildUndoInfo writeBeforeCreateSteps).cellsToClear.map CellRef.sheet := by
  decide

/-- C6 counterexample: a successfully executed `autoFillDown` step targeting a
sheet that is in no `sheetsToDelete` contributes nothing — `buildUndoInfo` has
no `autoFillDown` branch, so no (sheet, range) pair is appended and no undo
info is attached at all. -/
theorem autoFillDown_contributes_nothing :
    (runSteps (fun _ => "Auto-filled 10 rows") [autoFillStep]).map Prod.fst =
      [.done] ∧
    buildUndoInfo [autoFillStep] = { sheetsToDelete := [], cellsToClear := [] } ∧
    (buildUndoInfo [autoFillStep]).cellsToClear ≠
      [{ sheet := "Sheet1", range := "A1:A10" }] ∧
    (executeSteps (fun _ => "Auto-filled 10 rows") [autoFillStep]).2 = none := by
  decide

/-- C8 counterexample: `handleUndo` sets `undone := true` without inspecting
the reversal capability's result — here the capability's failure handler fired
and the invocation resolved to `"Undo failed: Range not found"`, a failure,
yet the flag still flips to true. -/
theorem undone_flips_after_failed_reversal :
    (handleUndo (.failure "Range not found") pendingUndoMsg).1 =
      some ("Undo failed: " ++ "Range not found") ∧
    (handleUndo (.failure "Range not found") pendingUndoMsg).2.undone = true := by
  decide

/-- A step whose action kind is none of `createSheet`, `setFormula`,
`setValues` leaves both accumulators of `buildUndoInfo` untouched. -/
theorem buildUndoInfoAux_skip (stp : StepAction) (rest : List StepAction)
    (sd : List String) (cc : List CellRef)
    (h1 : stp.action.action ≠ "createSheet")
    (h2 : stp.action.action ≠ "setFormula")
    (h3 : stp.action.action ≠ "setValues") :
    buildUndoInfoAux (stp :: rest) sd cc = buildUndoInfoAux rest sd cc := by
  simp [buildUndoInfoAux, h1, h2, h3]

/-- C6 (amended): a `done` `autoFillDown` step contributes nothing to the
undo info, whatever the accumulated state — `buildUndoInfo` only tracks
`createSheet`, `setFormula` and `setValues`. -/
theorem autoFillDown_step_skipped (stp : StepAction) (rest : List StepAction)
    (sd : List String) (cc : List CellRef)
    (h : stp.action.action = "autoFillDown") :
    buildUndoInfoAux (stp :: rest) sd cc = buildUndoInfoAux rest sd cc := by
  refine buildUndoInfoAux_skip stp rest sd cc ?_ ?_ ?_ <;> simp [h]

/-- Witness for `autoFillDown_step_skipped` at the concrete `autoFillStep`. -/
theorem autoFillDown_step_skipped_witness :
    buildUndoInfoAux [autoFillStep] ["Data"] [] =
      buildUndoInfoAux [] ["Data"] [] :=
  autoFillDown_step_skipped autoFillStep [] ["Data"] [] (by decide)

/-- All steps of a list that mention none of the three tracked action kinds
leave the accumulators unchanged. -/
theorem buildUndoInfoAux_setValue (steps : List StepAction)
    (sd : List String) (cc : List CellRef)
    (h : ∀ stp ∈ steps, stp.action.action = "setValue") :
    buildUndoInfoAux steps sd cc = { sheetsToDelete := sd, cellsToClear := cc } := by
  induction steps with
  | nil => rfl
  | cons stp rest ih =>
    have hs := h stp (List.mem_cons_self stp rest)
    rw [buildUndoInfoAux_skip stp rest sd cc (by simp [hs]) (by simp [hs]) (by simp [hs])]
    exact ih fun s hmem => h s (List.mem_cons_of_mem stp hmem)

/-- C10: a plan consisting solely of `setValue` steps produces the empty undo
info, and `executeSteps` then attaches no undo info to the message — no undo
is offered for such a plan. -/
theorem setValue_plan_has_no_undo (applyAction : SheetAction → String)
    (steps : List StepAction)
    (h : ∀ stp ∈ steps, stp.action.action = "setValue") :
    buildUndoInfo steps = { sheetsToDelete := [], cellsToClear := [] } ∧
    (executeSteps applyAction steps).2 = none := by
  have hb : buildUndoInfo steps = { sheetsToDelete := [], cellsToClear := [] } :=
    buildUndoInfoAux_setValue steps [] [] h
  refine ⟨hb, ?_⟩
  simp [executeSteps, hb]

/-- Witness for `setValue_plan_has_no_undo` on a one-step `setValue` plan. -/
theorem setValue_plan_has_no_undo_witness :
    buildUndoInfo [setValueStep] = { sheetsToDelete := [], cellsToClear := [] } ∧
    (executeSteps (fun _ => "Set A1 to 42") [setValueStep]).2 = none :=
  setValue_plan_has_no_undo (fun _ => "Set A1 to 42") [setValueStep] (by decide)

/-- The orchestrator's classification of a result string is binary: `done` or
`error`, never `pending` or `executing`. -/
theorem classifyResult_done_or_error (result : String) :
    classifyResult result = .done ∨ classifyResult result = .error := by
  unfold classifyResult
  split
  · exact Or.inr rfl
  · exact Or.inl rfl

/-- C2: after a run of the orchestrator, the final status column is either
all-`done`, or `done` up to a single `error` followed by only `pending`
statuses — execution stops at the first error and later steps are never
attempted.  The status list is as long as the plan: every step has a final
status. -/
theorem runSteps_fail_fast (applyAction : SheetAction → String)
    (steps : List StepAction) :
    (runSteps applyAction steps).length = steps.length ∧
    ((∃ n, (runSteps applyAction steps).map Prod.fst =
        List.replicate n StepStatus.done) ∨
     (∃ k m, (runSteps applyAction steps).map Prod.fst =
        List.replicate k StepStatus.done ++
          StepStatus.error :: List.replicate m StepStatus.pending)) := by
  induction steps with
  | nil => exact ⟨rfl, Or.inl ⟨0, rfl⟩⟩
  | cons stp rest ih =>
    rcases classifyResult_done_or_error (applyAction stp.action) with hd | he
    · have hrun : runSteps applyAction (stp :: rest) =
          (StepStatus.done, some (applyAction stp.action)) ::
            runSteps applyAction rest := by
        simp [runSteps, hd]
      constructor
      · rw [hrun]; simpa using ih.1
      · rcases ih.2 with ⟨n, hn⟩ | ⟨k, m, hkm⟩
        · exact Or.inl ⟨n + 1, by simp [hrun, hn, List.replicate_succ]⟩
        · exact Or.inr ⟨k + 1, m, by simp [hrun, hkm, List.replicate_succ]⟩
    · have hrun : runSteps applyAction (stp :: rest) =
          (StepStatus.error, some (applyAction stp.action)) ::
            rest.map (fun _ => (StepStatus.pending, none)) := by
        simp [runSteps, he]
      constructor
      · simp [hrun]
      · refine Or.inr ⟨0, rest.length, ?_⟩
        simp [hrun, List.map_const']

/-- C5: every step the orchestrator actually finished (final status not
`pending`) carries the string the capability returned as its stored result,
and its status is `error` exactly when that string starts with `"Error"`,
`done` otherwise.  Statuses and steps are matched positionally by `zip`. -/
theorem finished_step_status_matches_result (applyAction : SheetAction → String)
    (steps : List StepAction) (p : (StepStatus × Option String) × StepAction)
    (hmem : p ∈ (runSteps applyAction steps).zip steps)
    (hne : p.1.1 ≠ .pending) :
    p.1 = (if jsStartsWith (applyAction p.2.action) "Error" then
             StepStatus.error
           else StepStatus.done,
           some (applyAction p.2.action)) := by
  induction steps with
  | nil => simp at hmem
  | cons stp rest ih =>
    rcases classifyResult_done_or_error (applyAction stp.action) with hd | he
    · have hrun : runSteps applyAction (stp :: rest) =
          (StepStatus.done, some (applyAction stp.action)) ::
            runSteps applyAction rest := by
        simp [runSteps, hd]
      rw [hrun, List.zip_cons_cons] at hmem
      rcases List.mem_cons.mp hmem with hhead | htail
      · subst hhead
        have : ¬ jsStartsWith (applyAction stp.action) "Error" = true := by
          intro hstart
          simp [classifyResult, hstart] at hd
        simp [this]
      · exact ih htail
    · have hrun : runSteps applyAction (stp :: rest) =
          (StepStatus.error, some (applyAction stp.action)) ::
            rest.map (fun _ => (StepStatus.pending, none)) := by
        simp [runSteps, he]
      rw [hrun, List.zip_cons_cons] at hmem
      rcases List.mem_cons.mp hmem with hhead | htail
      · subst hhead
        have hstart : jsStartsWith (applyAction stp.action) "Error" = true := by
          by_contra hstart
          simp [classifyResult, hstart] at he
        simp [hstart]
      · exfalso
        have hp1 : p.1 ∈ rest.map (fun _ => ((StepStatus.pending : StepStatus),
            (none : Option String))) := (List.of_mem_zip htail).1
        rcases List.mem_map.mp hp1 with ⟨_, _, hpe⟩
        exact hne (by rw [← hpe])

/-- Witness for `finished_step_status_matches_result`: in scenario C the
second step's stored pair is the error result. -/
theorem finished_step_status_matches_result_witness :
    ((StepStatus.error, some "Error: invalid range") :
        StepStatus × Option String) =
      (if jsStartsWith (scenarioCOracle { setValuesStep with step := 2 }.action)
            "Error" then
         StepStatus.error
       else StepStatus.done,
       some (scenarioCOracle { setValuesStep with step := 2 }.action)) :=
  finished_step_status_matches_result scenarioCOracle scenarioCSteps
    ((StepStatus.error, some "Error: invalid range"),
      { setValuesStep with step := 2 })
    (by decide) (by decide)

/-- The string `"Action failed: " + err.message` never starts with `"Error"`, whatever
the bridge's error message. -/
theorem actionFailed_not_error_marked (m : String) :
    jsStartsWith ("Action failed: " ++ m) "Error" = false := by
  simp [jsStartsWith, String.data_append, List.isPrefixOf]

/-- C9: when the injected capability's call comes back through the failure
handler (`"Action failed: " + message`) or the bridge is absent
(`"Not running in Google Sheets"`), the returned string does not start with
`"Error"`, so the orchestrator records the step as `done` with that string as
its result and carries on executing the remaining steps. -/
theorem bridge_failure_counts_as_done (applyAction : SheetAction → String)
    (stp : StepAction) (rest : List StepAction) (m : String)
    (h : applyAction stp.action = executeSheetAction (.failure m) ∨
         applyAction stp.action = executeSheetAction .notInSheets) :
    jsStartsWith (applyAction stp.action) "Error" = false ∧
    runSteps applyAction (stp :: rest) =
      (StepStatus.done, some (applyAction stp.action)) ::
        runSteps applyAction rest := by
  have hfalse : jsStartsWith (applyAction stp.action) "Error" = false := by
    rcases h with hf | hn
    · rw [hf]; exact actionFailed_not_error_marked m
    · rw [hn]; decide
  have hdone : classifyResult (applyAction stp.action) = .done := by
    simp [classifyResult, hfalse]
  exact ⟨hfalse, by simp [runSteps, hdone]⟩

/-- Witness for `bridge_failure_counts_as_done`: a plan run entirely outside
Google Sheets still marches through all its steps, every one marked `done`. -/
theorem bridge_failure_counts_as_done_witness :
    jsStartsWith (noBridgeOracle createSummaryStep.action) "Error" = false ∧
    runSteps noBridgeOracle (createSummaryStep :: [summaryFormulaStep]) =
      (StepStatus.done, some (noBridgeOracle createSummaryStep.action)) ::
        runSteps noBridgeOracle [summaryFormulaStep] :=
  bridge_failure_counts_as_done noBridgeOracle createSummaryStep
    [summaryFormulaStep] "" (Or.inr rfl)

/-- On a message already marked `undone`, `handleUndo` issues no invocation
and leaves the message untouched. -/
theorem handleUndo_of_undone (o : GasOutcome) (msg : MsgUndoState)
    (h : msg.undone = true) : handleUndo o msg = (none, msg) := by
  unfold handleUndo
  cases msg.undoInfo with
  | none => rfl
  | some u => simp [h]

/-- Once `undone` holds, arbitrarily many further triggers of the control
issue zero invocations and never change the message. -/
theorem triggerUndoMany_of_undone (outcomes : List GasOutcome)
    (msg : MsgUndoState) (h : msg.undone = true) :
    triggerUndoMany outcomes msg = (0, msg) := by
  induction outcomes with
  | nil => rfl
  | cons o rest ih =>
    simp [triggerUndoMany, handleUndo_of_undone o msg h, ih]

/-- C4: over any sequence of user triggers of the Undo control, the reversal
capability is invoked at most once; and once a message's `undone` flag is
true, no trigger ever issues an invocation again — the Undo button is not
even rendered for it. -/
theorem applyUndo_at_most_once (outcomes : List GasOutcome)
    (msg : MsgUndoState) :
    (msg.undone = true →
      (triggerUndoMany outcomes msg).1 = 0 ∧ showUndoButton msg true = false) ∧
    (triggerUndoMany outcomes msg).1 ≤ 1 := by
  induction outcomes generalizing msg with
  | nil =>
    refine ⟨fun h => ⟨rfl, ?_⟩, Nat.zero_le 1⟩
    simp [showUndoButton, h]
  | cons o rest ih =>
    constructor
    · intro h
      refine ⟨by simp [triggerUndoMany_of_undone (o :: rest) msg h], ?_⟩
      simp [showUndoButton, h]
    · cases hinfo : msg.undoInfo with
      | none =>
        have hstep : handleUndo o msg = (none, msg) := by
          unfold handleUndo; rw [hinfo]
        simpa [triggerUndoMany, hstep] using (ih msg).2
      | some u =>
        by_cases hu : msg.undone = true
        · simp [triggerUndoMany_of_undone (o :: rest) msg hu]
        · have hstep : handleUndo o msg =
              (some (undoSheetActionsGAS o), { msg with undone := true }) := by
            unfold handleUndo
            rw [hinfo]
            simp [hu]
          have hrest : triggerUndoMany rest { msg with undone := true } =
              (0, { msg with undone := true }) :=
            triggerUndoMany_of_undone rest _ rfl
          simp [triggerUndoMany, hstep, hrest]

/-- Witness for `applyUndo_at_most_once`: an already-undone message survives
two further triggers with zero invocations and no visible button. -/
theorem applyUndo_at_most_once_witness :
    (triggerUndoMany [.success "Undo done", .success "Undo done"] undoneMsg).1 = 0 ∧
    showUndoButton undoneMsg true = false :=
  (applyUndo_at_most_once [.success "Undo done", .success "Undo done"]
    undoneMsg).1 (by decide)

/-- C8 (amended): the `undone` flag starts false on a fresh message, flips to
true exactly when a reversal invocation is issued — successful or not — and
once true it never resets and suppresses any further invocation. -/
theorem undone_flag_lifecycle (u : Option UndoInfo) (o : GasOutcome)
    (msg : MsgUndoState) :
    (initialUndoState u).undone = false ∧
    (handleUndo o msg).2.undone = (msg.undone || (handleUndo o msg).1.isSome) ∧
    (msg.undone = true → handleUndo o msg = (none, msg)) := by
  refine ⟨rfl, ?_, handleUndo_of_undone o msg⟩
  unfold handleUndo
  cases msg.undoInfo with
  | none => simp
  | some v =>
    by_cases hu : msg.undone = true <;> simp [hu]

/-- Witness for `undone_flag_lifecycle` on an already-undone message. -/
theorem undone_flag_lifecycle_witness :
    handleUndo (.success "Undo done") undoneMsg = (none, undoneMsg) :=
  (undone_flag_lifecycle none (.success "Undo done") undoneMsg).2.2 (by decide)

/-- One pass of the `buildUndoInfo` loop, characterized through `createName`
and `writeEntry`: a truthy `createSheet` pushes its name, a tracked write
pushes its (sheet, location) pair unless the sheet is already scheduled for
deletion, and everything else is skipped. -/
theorem buildUndoInfoAux_cons (stp : StepAction) (rest : List StepAction)
    (sd : List String) (cc : List CellRef) :
    buildUndoInfoAux (stp :: rest) sd cc =
      match createName stp with
      | some n => buildUndoInfoAux rest (sd ++ [n]) cc
      | none =>
        match writeEntry stp with
        | some e =>
          if sd.contains e.sheet then buildUndoInfoAux rest sd cc
          else buildUndoInfoAux rest sd (cc ++ [e])
        | none => buildUndoInfoAux rest sd cc := by
  by_cases hc1 : (stp.action.action = "createSheet" && isTruthy stp.action.name) = true
  · have hsplit := (Bool.and_eq_true _ _).mp hc1
    have hcs : stp.action.action = "createSheet" := of_decide_eq_true hsplit.1
    simp [buildUndoInfoAux, createName, writeEntry, hc1, hcs, hsplit.2]
  · by_cases hc2 : (stp.action.action = "setFormula" &&
        isTruthy stp.action.sheet && isTruthy stp.action.cell) = true
    · have hsplit := (Bool.and_eq_true _ _).mp hc2
      have hsplit1 := (Bool.and_eq_true _ _).mp hsplit.1
      have hcs : stp.action.action = "setFormula" := of_decide_eq_true hsplit1.1
      simp [buildUndoInfoAux, createName, writeEntry, hc1, hc2, hcs,
        hsplit1.2, hsplit.2]
    · by_cases hc3 : (stp.action.action = "setValues" &&
          isTruthy stp.action.sheet && isTruthy stp.action.range) = true
      · have hsplit := (Bool.and_eq_true _ _).mp hc3
        have hsplit1 := (Bool.and_eq_true _ _).mp hsplit.1
        have hcs : stp.action.action = "setValues" := of_decide_eq_true hsplit1.1
        simp [buildUndoInfoAux, createName, writeEntry, hc1, hc2, hc3, hcs,
          hsplit1.2, hsplit.2]
      · simp [buildUndoInfoAux, createName, writeEntry, hc1, hc2, hc3]

/-- A step that contributes a write entry is not a (truthy) `createSheet`
step. -/
theorem createName_eq_none_of_writeEntry (stp : StepAction) (e : CellRef)
    (hw : writeEntry stp = some e) : createName stp = none := by
  by_cases hc1 : (stp.action.action = "createSheet" && isTruthy stp.action.name) = true
  · have hcs : stp.action.action = "createSheet" :=
      of_decide_eq_true ((Bool.and_eq_true _ _).mp hc1).1
    simp [writeEntry, hcs] at hw
  · simp [createName, hc1]

/-- On a plan with no (truthy) `createSheet` step, `buildUndoInfo` appends
exactly the tracked write entries, in step order, after whatever was already
accumulated. -/
theorem buildUndoInfoAux_no_create (steps : List StepAction) (cc : List CellRef)
    (h : ∀ stp ∈ steps, createName stp = none) :
    buildUndoInfoAux steps [] cc =
      { sheetsToDelete := [], cellsToClear := cc ++ steps.filterMap writeEntry } := by
  induction steps generalizing cc with
  | nil => simp [buildUndoInfoAux]
  | cons stp rest ih =>
    rw [buildUndoInfoAux_cons, h stp (List.mem_cons_self stp rest)]
    cases hw : writeEntry stp with
    | none =>
      have hrest := ih cc fun s hs => h s (List.mem_cons_of_mem stp hs)
      simp [List.filterMap_cons, hw, hrest]
    | some e =>
      have hrest := ih (cc ++ [e]) fun s hs => h s (List.mem_cons_of_mem stp hs)
      simp [List.filterMap_cons, hw, hrest]

/-- C7: undo coverage of a fully-successful plan.  Scenario A: a formula
write into the sheet created one step earlier leaves no `cellsToClear` entry;
scenario B: two writes into a pre-existing sheet are logged in step order.
In general, a plan without `createSheet` steps logs exactly its tracked
writes in order, and any tracked write into a sheet already scheduled for
deletion contributes nothing. -/
theorem undo_covers_writes_to_preexisting_sheets :
    buildUndoInfo scenarioASteps =
      { sheetsToDelete := ["Summary"], cellsToClear := [] } ∧
    buildUndoInfo scenarioBSteps =
      { sheetsToDelete := [],
        cellsToClear := [{ sheet := "Sheet1", range := "A1:B3" },
                         { sheet := "Sheet1", range := "C1" }] } ∧
    (∀ steps : List StepAction, (∀ stp ∈ steps, createName stp = none) →
      buildUndoInfo steps =
        { sheetsToDelete := [], cellsToClear := steps.filterMap writeEntry }) ∧
    (∀ (stp : StepAction) (rest : List StepAction) (sd : List String)
       (cc : List CellRef) (e : CellRef),
      writeEntry stp = some e → sd.contains e.sheet = true →
      buildUndoInfoAux (stp :: rest) sd cc = buildUndoInfoAux rest sd cc) := by
  refine ⟨by decide, by decide, ?_, ?_⟩
  · intro steps h
    simpa using buildUndoInfoAux_no_create steps [] h
  · intro stp rest sd cc e hw hmem
    rw [buildUndoInfoAux_cons, createName_eq_none_of_writeEntry stp e hw, hw]
    simp only [hmem, if_true]

/-- Witness for `undo_covers_writes_to_preexisting_sheets`: scenario B's plan
logs exactly its two writes, and scenario A's second step contributes nothing
once "Summary" is scheduled for deletion. -/
theorem undo_covers_writes_to_preexisting_sheets_witness :
    buildUndoInfo scenarioBSteps =
      { sheetsToDelete := [],
        cellsToClear := scenarioBSteps.filterMap writeEntry } ∧
    buildUndoInfoAux [summaryFormulaStep] ["Summary"] [] =
      buildUndoInfoAux [] ["Summary"] [] :=
  ⟨undo_covers_writes_to_preexisting_sheets.2.2.1 scenarioBSteps (by decide),
   undo_covers_writes_to_preexisting_sheets.2.2.2 summaryFormulaStep [] ["Summary"]
     [] { sheet := "Summary", range := "B2" } (by decide) (by decide)⟩

/-- Invariant carried through the `buildUndoInfo` loop: provided (i) no sheet
of an already-accumulated clear entry is already scheduled for deletion,
(ii) no remaining step creates the sheet of an already-accumulated clear
entry, and (iii) within the remaining steps no `createSheet` follows a write
into the sheet it creates, the final accumulators are disjoint. -/
theorem buildUndoInfoAux_disjoint (steps : List StepAction) (sd : List String)
    (cc : List CellRef)
    (h1 : ∀ c ∈ cc, c.sheet ∉ sd)
    (h2 : ∀ c ∈ cc, ∀ stp ∈ steps, createName stp ≠ some c.sheet)
    (h3 : steps.Pairwise fun a b => createAfterWriteOK a b = true) :
    ∀ c ∈ (buildUndoInfoAux steps sd cc).cellsToClear,
      c.sheet ∉ (buildUndoInfoAux steps sd cc).sheetsToDelete := by
  induction steps generalizing sd cc with
  | nil => simpa [buildUndoInfoAux] using h1
  | cons stp rest ih =>
    cases h3 with
    | cons hhead htail =>
      rw [buildUndoInfoAux_cons]
      cases hcn : createName stp with
      | some n =>
        refine ih (sd ++ [n]) cc ?_ ?_ htail
        · intro c hc
          simp only [List.mem_append, List.mem_singleton, not_or]
          refine ⟨h1 c hc, fun heq => ?_⟩
          exact h2 c hc stp (List.mem_cons_self stp rest) (heq ▸ hcn)
        · exact fun c hc s hs => h2 c hc s (List.mem_cons_of_mem stp hs)
      | none =>
        cases hw : writeEntry stp with
        | none =>
          exact ih sd cc h1
            (fun c hc s hs => h2 c hc s (List.mem_cons_of_mem stp hs)) htail
        | some e =>
          by_cases hmem : sd.contains e.sheet = true
          · simp only [hmem, if_true]
            exact ih sd cc h1
              (fun c hc s hs => h2 c hc s (List.mem_cons_of_mem stp hs)) htail
          · simp only [hmem, if_false]
            refine ih sd (cc ++ [e]) ?_ ?_ htail
            · intro c hc
              rcases List.mem_append.mp hc with hold | hnew
              · exact h1 c hold
              · rw [List.mem_singleton.mp hnew]
                intro habs
                exact hmem (List.elem_eq_true_of_mem habs)
            · intro c hc s hs
              rcases List.mem_append.mp hc with hold | hnew
              · exact h2 c hold s (List.mem_cons_of_mem stp hs)
              · rw [List.mem_singleton.mp hnew]
                have hok := hhead s hs
                rw [createAfterWriteOK, hw] at hok
                intro habs
                rw [habs] at hok
                simp at hok

/-- C3 (amended): whenever every `createSheet` step comes no later than any
tracked write into the sheet it creates — the execution order the upstream
planner is trusted to produce — no sheet name lands both in `sheetsToDelete`
and in the sheet component of a `cellsToClear` entry. -/
theorem sheetsToDelete_disjoint_of_create_before_write (steps : List StepAction)
    (h : steps.Pairwise fun a b => createAfterWriteOK a b = true) :
    ∀ c ∈ (buildUndoInfo steps).cellsToClear,
      c.sheet ∉ (buildUndoInfo steps).sheetsToDelete :=
  buildUndoInfoAux_disjoint steps [] [] (by simp) (by simp) h

/-- Witness for `sheetsToDelete_disjoint_of_create_before_write`: a plan
creating sheet "T" and writing into the pre-existing sheet "U" keeps the two
lists disjoint. -/
theorem sheetsToDelete_disjoint_of_create_before_write_witness :
    ({ sheet := "U", range := "A1" } : CellRef).sheet ∉
      (buildUndoInfo createThenWriteElsewhereSteps).sheetsToDelete :=
  sheetsToDelete_disjoint_of_create_before_write createThenWriteElsewhereSteps
    (by decide) { sheet := "U", range := "A1" } (by decide)

end Mindsheet
